import Mathlib

/-!
Shallow embedding of the file-type detection engine of the Data Alchemist
repository (`src/data_alchemist/detection/heuristics.py` and
`src/data_alchemist/detection/detector.py`), together with theorems settling
the specification claims about it.

A file on disk is modelled by `FSFile`: the observable facts the detection
code consumes — existence, regular-file status, `stat` size, whether the
binary prefix read succeeds (`readOk`), the raw bytes, whether the text read
succeeds (`textOk`), the raw text lines (as iterated by Python, with the
trailing newline already separated off; Python's `str.strip` is modelled by
`pyStrip`, whitespace on its ASCII fragment), and the file-name suffix
(Python `Path.suffix`, including the leading dot). Confidences are modelled as rationals; all confidence literals
appearing in the code (1.0, 0.8, 0.6, 0.5, 0.4, 0.15) and every comparison
the code performs on them are exact in binary floating point relative to the
orderings proved here, so `ℚ` is a faithful model of the `float` arithmetic
actually exercised. Python's `re` patterns in `looks_like_log` are compiled
to explicit character-level matchers over ASCII text (the `\w` and `\s`
classes are modelled on their ASCII fragment).
-/

namespace DataAlchemist

/-- Model of a file as observed by the detection engine. Fields, in order:
`fexists` (path exists), `isFile` (regular file), `stSize` (`stat().st_size`,
a non-negative integer), `readOk` (binary read succeeds), `rawBytes` (file
bytes), `textOk` (text read succeeds), `rawLines` (decoded text lines),
`suffix` (file-name suffix with leading dot, possibly empty). -/
structure FSFile where
  fexists : Bool
  isFile : Bool
  stSize : Nat
  readOk : Bool
  rawBytes : List Nat
  textOk : Bool
  rawLines : List String
  suffix : String

/-! ### Binary signatures (`BINARY_SIGNATURES`, heuristics.py lines 33-39) -/

/-- PNG signature `b'\x89PNG\r\n\x1a\n'`. -/
def pngSig : List Nat := [0x89, 0x50, 0x4E, 0x47, 0x0D, 0x0A, 0x1A, 0x0A]

/-- JPEG signature `b'\xff\xd8\xff'`. -/
def jpegSig : List Nat := [0xFF, 0xD8, 0xFF]

/-- WAV outer-container signature `b'RIFF'`. -/
def riffSig : List Nat := [0x52, 0x49, 0x46, 0x46]

/-- WAV inner-format signature `b'WAVE'` (expected at offset 8). -/
def waveSig : List Nat := [0x57, 0x41, 0x56, 0x45]

/-- GIF signature `b'GIF89a'`. -/
def gifSig : List Nat := [0x47, 0x49, 0x46, 0x38, 0x39, 0x61]

/-- PDF signature `b'%PDF'`. -/
def pdfSig : List Nat := [0x25, 0x50, 0x44, 0x46]

/-- Model of `bytes.startswith` on byte lists. -/
def startsWith : List Nat → List Nat → Bool
  | [], _ => true
  | _ :: _, [] => false
  | s :: ss, b :: bs => s == b && startsWith ss bs

/-- Model of `detect_by_signature` (heuristics.py lines 42-97): read the first 16
bytes; an `IOError` (modelled by `readOk = false`) or an empty header yields
`none`; otherwise the signature table is scanned in insertion order
(png, jpeg, wav, gif, pdf), wav checking `RIFF` at offset 0 and `WAVE` at
offset 8 (`header[8:12]`). -/
def detect_by_signature (f : FSFile) : Option String :=
  if f.readOk = false then none
  else
    let header := f.rawBytes.take 16
    if header = [] then none
    else if startsWith pngSig header then some "png"
    else if startsWith jpegSig header then some "jpeg"
    else if startsWith riffSig header && ((header.drop 8).take 4 == waveSig) then some "wav"
    else if startsWith gifSig header then some "gif"
    else if startsWith pdfSig header then some "pdf"
    else none

/-! ### Extension mapping (`EXTENSION_MAP`, heuristics.py lines 112-123) -/

/-- The `EXTENSION_MAP` table: suffix to file-type, in source order. -/
def EXTENSION_MAP : List (String × String) :=
  [(".csv", "csv"), (".tsv", "csv"), (".log", "log"), (".txt", "text"),
   (".wav", "wav"), (".png", "png"), (".jpg", "jpeg"), (".jpeg", "jpeg"),
   (".gif", "gif"), (".pdf", "pdf")]

/-- Python `str.lower` (ASCII fragment), computed structurally on the
character list. -/
def pyLower (s : String) : String :=
  ⟨s.data.map Char.toLower⟩

/-- Model of `detect_by_extension` (heuristics.py lines 126-161): lower-case the
suffix and look it up in `EXTENSION_MAP`. -/
def detect_by_extension (f : FSFile) : Option String :=
  (EXTENSION_MAP.find? (fun p => p.1 = pyLower f.suffix)).map Prod.snd

/-! ### Content analysis (heuristics.py lines 168-327) -/

/-- Python `str.strip` (ASCII-whitespace fragment), computed structurally
on the character list. -/
def pyStrip (s : String) : String :=
  ⟨((s.data.dropWhile Char.isWhitespace).reverse.dropWhile Char.isWhitespace).reverse⟩

/-- Line sampling shared by both content analyzers: take the first
`sampleCount` raw lines, strip each, keep the non-empty ones. -/
def sampleNonEmpty (raw : List String) (sampleCount : Nat) : List String :=
  ((raw.take sampleCount).map pyStrip).filter (fun l => l ≠ "")

/-- Model of `str.count` for a single-character needle. -/
def countChar (c : Char) (s : String) : Nat :=
  s.toList.count c

/-- The delimiter set probed by `looks_like_csv`. -/
def csvDelimiters : List Char := [',', '\t', ';', '|']

/-- Model of `looks_like_csv` (heuristics.py lines 168-242): sample up to
`sampleCount` lines (default 10); fewer than 2 non-empty lines is `false`;
otherwise `true` iff some delimiter has a positive maximal per-line count and
per-line average count at least 1 (`sum ≥ length` — exact in float since the
division `sum/len` with `len ≤ 10` never rounds across 1). An I/O or decode
failure (modelled by `textOk = false`) yields `false`. -/
def looks_like_csv (f : FSFile) (sampleCount : Nat) : Bool :=
  if f.textOk = false then false
  else
    let lines := sampleNonEmpty f.rawLines sampleCount
    if lines.length < 2 then false
    else
      csvDelimiters.any (fun d =>
        let counts := lines.map (countChar d)
        decide (0 < counts.foldr max 0) && decide (lines.length ≤ counts.sum))

/-- ASCII fragment of Python's regex class `\d`. -/
def isDigitCh (c : Char) : Bool := c.isDigit

/-- ASCII fragment of Python's regex class `\w` (`[A-Za-z0-9_]`). -/
def isWordCh (c : Char) : Bool := c.isAlphanum || c == '_'

/-- ASCII fragment of Python's regex class `\s`. -/
def isSpaceCh (c : Char) : Bool := c.isWhitespace

/-- Match exactly `n` characters satisfying `p`, returning the rest. -/
def takeExact (p : Char → Bool) : Nat → List Char → Option (List Char)
  | 0, cs => some cs
  | _ + 1, [] => none
  | n + 1, c :: cs => if p c then takeExact p n cs else none

/-- Consume an optional single occurrence of `c` (regex `c?` where the
following pattern can never match `c`, so greedy consumption is exact). -/
def dropOpt (c : Char) : List Char → List Char
  | [] => []
  | c2 :: cs => if c2 == c then cs else c2 :: cs

/-- Consume one mandatory character from a class (regex `[..]`). -/
def matchClass (p : Char → Bool) : List Char → Option (List Char)
  | [] => none
  | c :: cs => if p c then some cs else none

/-- Consume a maximal non-empty run of characters satisfying `p` (regex
`p+` in a context where the next pattern atom is disjoint from `p`, so the
greedy match never needs to backtrack). -/
def plusRun (p : Char → Bool) : List Char → Option (List Char)
  | [] => none
  | c :: cs => if p c then some (cs.dropWhile p) else none

/-- First alternative of the timestamp pattern: an optional opening bracket,
4 digits, a dash-or-slash separator, 2 digits, a separator, 2 digits. -/
def tsAlt1 (cs : List Char) : Bool :=
  (do
    let cs ← takeExact isDigitCh 4 (dropOpt '[' cs)
    let cs ← matchClass (fun c => c == '-' || c == '/') cs
    let cs ← takeExact isDigitCh 2 cs
    let cs ← matchClass (fun c => c == '-' || c == '/') cs
    takeExact isDigitCh 2 cs).isSome

/-- Second alternative of the timestamp pattern: an optional opening
bracket, 2 digits, a dash-or-slash separator, 2 digits, a separator,
4 digits. -/
def tsAlt2 (cs : List Char) : Bool :=
  (do
    let cs ← takeExact isDigitCh 2 (dropOpt '[' cs)
    let cs ← matchClass (fun c => c == '-' || c == '/') cs
    let cs ← takeExact isDigitCh 2 cs
    let cs ← matchClass (fun c => c == '-' || c == '/') cs
    takeExact isDigitCh 4 cs).isSome

/-- Third alternative of the timestamp pattern:
`^\[?\w{3}\s+\d{1,2}\s+\d{2}:\d{2}:\d{2}`. `\d{1,2}` followed by `\s+` is
matched by taking the maximal digit run and requiring its length to be 1 or
2 (backtracking from 2 digits to 1 can never rescue a failed match because
the follow set `\s` is disjoint from `\d`). -/
def tsAlt3 (cs : List Char) : Bool :=
  (do
    let cs ← takeExact isWordCh 3 (dropOpt '[' cs)
    let cs ← plusRun isSpaceCh cs
    let run := cs.takeWhile isDigitCh
    let cs := cs.dropWhile isDigitCh
    if run.length = 0 || 2 < run.length then none else
    let cs ← plusRun isSpaceCh cs
    let cs ← takeExact isDigitCh 2 cs
    let cs ← matchClass (fun c => c == ':') cs
    let cs ← takeExact isDigitCh 2 cs
    let cs ← matchClass (fun c => c == ':') cs
    takeExact isDigitCh 2 cs).isSome

/-- Model of `timestamp_pattern.search(line)`: every alternative is anchored with
`^`, so the search succeeds iff one alternative matches at position 0. -/
def timestampMatch (s : String) : Bool :=
  tsAlt1 s.toList || tsAlt2 s.toList || tsAlt3 s.toList

/-- The log-level vocabulary of `log_level_pattern`. -/
def logKeywords : List String :=
  ["ERROR", "WARN", "WARNING", "INFO", "DEBUG", "TRACE", "FATAL", "CRITICAL"]

/-- Case-insensitive prefix match, returning the remainder on success. -/
def ciStarts : List Char → List Char → Option (List Char)
  | [], cs => some cs
  | _ :: _, [] => none
  | k :: ks, c :: cs => if k.toLower == c.toLower then ciStarts ks cs else none

/-- Word-boundary check for a keyword occurrence: the character before the
occurrence (`prev`, `none` at line start) and the character after it must
not be word characters — keywords consist of word characters only. -/
def boundaryOk (prev : Option Char) (rest : List Char) : Bool :=
  (match prev with
   | none => true
   | some c => !isWordCh c) &&
  (match rest with
   | [] => true
   | c :: _ => !isWordCh c)

/-- Scan for `\b(ERROR|WARN|...)\b` (case-insensitive) anywhere in the
character list; `prev` is the character just before the current position. -/
def kwSearch (prev : Option Char) : List Char → Bool
  | [] => false
  | c :: rest =>
    logKeywords.any (fun kw =>
      match ciStarts kw.toList (c :: rest) with
      | some after => boundaryOk prev after
      | none => false) || kwSearch (some c) rest

/-- Model of `log_level_pattern.search(line)`. -/
def logLevelMatch (s : String) : Bool :=
  kwSearch none s.toList

/-- Model of `looks_like_log` (heuristics.py lines 245-327): sample up to
`sampleCount` lines; no non-empty line is `false`; otherwise count the lines
matching the timestamp pattern and the log-level pattern and report `true`
iff either count reaches 50% of the sampled non-empty lines
(`matches ≥ len * 0.5`, exact in float, stated as `2 * matches ≥ len`).
An I/O or decode failure yields `false`. -/
def looks_like_log (f : FSFile) (sampleCount : Nat) : Bool :=
  if f.textOk = false then false
  else
    let lines := sampleNonEmpty f.rawLines sampleCount
    if lines = [] then false
    else
      let tsMatches := lines.countP (fun l => timestampMatch l)
      let lvMatches := lines.countP (fun l => logLevelMatch l)
      decide (lines.length ≤ 2 * tsMatches) || decide (lines.length ≤ 2 * lvMatches)

/-! ### Single-best-match detection (`detect_with_confidence`,
heuristics.py lines 334-413) -/

/-- Model of `detect_with_confidence`: signature first (confidence 1.0); then the
extension-plus-content checks for csv and log (0.8); then content analysis
alone, tabular before log (0.6); then the bare extension proposal (0.5);
otherwise `(none, 0.0)`. All content analyzers run with the default sample
bound of 10 lines. -/
def detect_with_confidence (f : FSFile) : Option String × ℚ :=
  match detect_by_signature f with
  | some t => (some t, 1)
  | none =>
    let extType := detect_by_extension f
    if extType = some "csv" ∧ looks_like_csv f 10 = true then (some "csv", 4/5)
    else if extType = some "log" ∧ looks_like_log f 10 = true then (some "log", 4/5)
    else if looks_like_csv f 10 = true then (some "csv", 3/5)
    else if looks_like_log f 10 = true then (some "log", 3/5)
    else
      match extType with
      | some t => (some t, 1/2)
      | none => (none, 0)

/-! ### Exhaustive candidate collection (`detect_all_possible_types`,
heuristics.py lines 420-489) -/

/-- Python dict assignment `d[k] = v` on an insertion-ordered association
list: replace the value in place when the key is present, append otherwise
(Python 3.7+ dicts preserve insertion order and keep the original position
on re-assignment). -/
def upsert (k : String) (v : ℚ) : List (String × ℚ) → List (String × ℚ)
  | [] => [(k, v)]
  | (k2, v2) :: rest => if k2 = k then (k, v) :: rest else (k2, v2) :: upsert k v rest

/-- Check 1 of `detect_all_possible_types`: a signature match contributes
confidence 1.0 to the empty dictionary. -/
def sigStep (f : FSFile) : List (String × ℚ) :=
  match detect_by_signature f with
  | some t => upsert t 1 []
  | none => []

/-- Check 2: the extension proposal contributes 0.5 unless its tag is
already present. -/
def extStep (f : FSFile) (l : List (String × ℚ)) : List (String × ℚ) :=
  match detect_by_extension f with
  | some t => if l.lookup t = none then upsert t (1/2) l else l
  | none => l

/-- Check 3: a firing csv analyzer raises an existing csv entry to `max`
with 0.8, otherwise contributes 0.6. -/
def csvStep (f : FSFile) (l : List (String × ℚ)) : List (String × ℚ) :=
  if looks_like_csv f 10 = true then
    match l.lookup "csv" with
    | some c => upsert "csv" (max c (4/5)) l
    | none => upsert "csv" (3/5) l
  else l

/-- Check 4: a firing log analyzer raises an existing log entry to `max`
with 0.8, otherwise contributes 0.6. -/
def logStep (f : FSFile) (l : List (String × ℚ)) : List (String × ℚ) :=
  if looks_like_log f 10 = true then
    match l.lookup "log" with
    | some c => upsert "log" (max c (4/5)) l
    | none => upsert "log" (3/5) l
  else l

/-- Check 5: a sole `text` entry proposed by the extension is downgraded
to 0.4. -/
def textStep (f : FSFile) (l : List (String × ℚ)) : List (String × ℚ) :=
  if detect_by_extension f = some "text" ∧ l.lookup "text" ≠ none ∧ l.length = 1 then
    upsert "text" (2/5) l
  else l

/-- Model of `detect_all_possible_types`: run every strategy without short-circuiting
and collect an insertion-ordered tag-to-confidence dictionary by the five
sequential dictionary updates of the source. -/
def detect_all_possible_types (f : FSFile) : List (String × ℚ) :=
  textStep f (logStep f (csvStep f (extStep f (sigStep f))))

/-! ### Ambiguity decision (`is_detection_ambiguous`,
heuristics.py lines 492-548) -/

/-- One step of the stable descending-by-confidence sort: insert `x` before
the first element whose confidence does not exceed it. -/
def insertByConf (x : String × ℚ) : List (String × ℚ) → List (String × ℚ)
  | [] => [x]
  | y :: ys => if y.2 ≤ x.2 then x :: y :: ys else y :: insertByConf x ys

/-- Python's `sorted(items, key=confidence, reverse=True)`: a stable sort,
descending by confidence; stable sorts agree on their output, so insertion
sort is an exact model. -/
def sortByConfDesc : List (String × ℚ) → List (String × ℚ)
  | [] => []
  | x :: xs => insertByConf x (sortByConfDesc xs)

/-- Model of `is_detection_ambiguous`: fewer than two candidates is never ambiguous;
otherwise sort descending by confidence and compare the gap between the two
top confidences against the threshold (default 0.15 at the call sites).
Returns the flag together with the unsorted candidate dictionary. -/
def is_detection_ambiguous (f : FSFile) (thr : ℚ) : Bool × List (String × ℚ) :=
  let allResults := detect_all_possible_types f
  if allResults.length < 2 then (false, allResults)
  else
    match sortByConfDesc allResults with
    | a :: b :: _ => (decide (a.2 - b.2 ≤ thr), allResults)
    | _ => (false, allResults)

/-! ### Detection facade (`detect_file_type`, detector.py lines 34-116) -/

/-- The distinct failure exits of `detect_file_type`, one constructor per
`raise` site: `FileNotFoundError`, `DetectionError` for a non-regular path,
`PermissionError` from the readability check, `DetectionError` for an
undetectable type, and `DetectionError` for a below-threshold confidence. -/
inductive DetErr where
  | fileNotFound
  | notAFile
  | permissionError
  | undetermined
  | lowConfidence
deriving DecidableEq

/-- Model of `detect_file_type`: validate existence, regular-file status and the
"readability" condition `not (st_size >= 0)` exactly as written in the
source, then detect with confidence and enforce the minimum-confidence
threshold (default 0.5 at the call sites). -/
def detect_file_type (f : FSFile) (minConfidence : ℚ) : Except DetErr String :=
  if f.fexists = false then .error .fileNotFound
  else if f.isFile = false then .error .notAFile
  else if ¬ (f.stSize ≥ 0) then .error .permissionError
  else
    match detect_with_confidence f with
    | (none, _) => .error .undetermined
    | (some t, c) => if c < minConfidence then .error .lowConfidence else .ok t

/-! ### Spec-side formulations, used to state the claims -/

/-- The claim of signature precedence quantifies over "files whose byte
prefix matches one of the registered binary signatures"; this predicate
states that matching directly from the `BINARY_SIGNATURES` table, tag by
tag, independently of the matcher implementation. -/
def sigHolds (t : String) (bs : List Nat) : Prop :=
  (t = "png" ∧ ∃ r, bs = pngSig ++ r) ∨
  (t = "jpeg" ∧ ∃ r, bs = jpegSig ++ r) ∨
  (t = "wav" ∧ ∃ a b c d r, bs = riffSig ++ [a, b, c, d] ++ waveSig ++ r) ∨
  (t = "gif" ∧ ∃ r, bs = gifSig ++ r) ∨
  (t = "pdf" ∧ ∃ r, bs = pdfSig ++ r)

/-- The tags that own a content analyzer, per the spec's priority ladder:
csv and log. -/
def analyzerFor (t : String) : Option (FSFile → Bool) :=
  if t = "csv" then some (fun f => looks_like_csv f 10)
  else if t = "log" then some (fun f => looks_like_log f 10)
  else none

/-- Rungs 3-5 of the spec's ladder: content analyzers in order (tabular
before log) at 0.6, then the raw extension proposal at 0.5, then
`(none, 0.0)`. -/
def contentThenExtension (f : FSFile) : Option String × ℚ :=
  if looks_like_csv f 10 = true then (some "csv", 3/5)
  else if looks_like_log f 10 = true then (some "log", 3/5)
  else
    match detect_by_extension f with
    | some t => (some t, 1/2)
    | none => (none, 0)

/-- The priority ladder exactly as the claim words it, for inputs past the
signature rung: if the extension proposes a tag owning a content analyzer
and that analyzer agrees, return it at 0.8; otherwise fall through to
content analysis, then the bare extension, then `(none, 0.0)`. -/
def ladderFromSpec (f : FSFile) : Option String × ℚ :=
  match detect_by_extension f with
  | some t =>
    match analyzerFor t with
    | some analyzer => if analyzer f = true then (some t, 4/5) else contentThenExtension f
    | none => contentThenExtension f
  | none => contentThenExtension f

/-- The individual confidence contributions the spec assigns for a tag:
1.0 from a signature match, 0.5 from an extension match, and from a
content analyzer that fires 0.6 — boosted to 0.8 when the same tag is also
the extension's proposal. -/
def contribs (f : FSFile) (t : String) : List ℚ :=
  (if detect_by_signature f = some t then [1] else []) ++
  (if detect_by_extension f = some t then [1/2] else []) ++
  (if t = "csv" ∧ looks_like_csv f 10 = true then
    [if detect_by_extension f = some "csv" then 4/5 else 3/5] else []) ++
  (if t = "log" ∧ looks_like_log f 10 = true then
    [if detect_by_extension f = some "log" then 4/5 else 3/5] else [])

/-! ### Concrete files used as witnesses and counterexamples -/

/-- A PNG-signatured file misleadingly named with a `.txt` suffix. -/
def filePngRenamed : FSFile :=
  ⟨true, true, 12, true, pngSig ++ [0, 1, 2, 3], true, [], ".txt"⟩

/-- A well-behaved `.csv` file whose two lines each contain one comma
(bytes are the ASCII encoding of its text). -/
def fileCsv : FSFile :=
  ⟨true, true, 8, true, [97, 44, 98, 10, 99, 44, 100], true, ["a,b", "c,d"], ".csv"⟩

/-- A `.txt` file of plain prose: one line, no delimiters, no timestamps. -/
def filePlainTxt : FSFile :=
  ⟨true, true, 11, true, [104, 101, 108, 108, 111], true, ["hello world"], ".txt"⟩

/-- A `.txt` file whose two lines are simultaneously comma-delimited and
timestamped log lines with a log-level keyword. -/
def fileTxtCsvLog : FSFile :=
  ⟨true, true, 42, true, [50, 48, 50, 52, 45, 48, 49, 45, 49, 53], true,
   ["2024-01-15 ERROR a,b", "2024-01-16 ERROR c,d"], ".txt"⟩

/-- A file named with a `.png` suffix whose content is comma-delimited
text (a renamed CSV). -/
def filePngExtCsvContent : FSFile :=
  ⟨true, true, 8, true, [97, 44, 98, 10, 99, 44, 100], true, ["a,b", "c,d"], ".png"⟩

/-- An existing regular `.csv` file whose bytes cannot be read (every
open fails, so both the binary and the text sample raise). -/
def fileUnreadableCsv : FSFile :=
  ⟨true, true, 999, false, [], false, [], ".csv"⟩

/-- An existing regular extensionless file whose bytes cannot be read. -/
def fileUnreadableNoExt : FSFile :=
  ⟨true, true, 999, false, [], false, [], ""⟩

/-- A file with a single timestamped, log-levelled line and an unknown
suffix. -/
def fileOneLogLine : FSFile :=
  ⟨true, true, 20, true, [50], true, ["2024-01-15 ERROR x"], ".dat"⟩

/-- An empty file with no suffix. -/
def fileEmpty : FSFile :=
  ⟨true, true, 0, true, [], true, [], ""⟩

/-! ### Signature-matching lemmas -/

theorem startsWith_append (s r : List Nat) : startsWith s (s ++ r) = true := by
  induction s with
  | nil => rfl
  | cons a ss ih => simp [startsWith, ih]

theorem startsWith_take (s : List Nat) : ∀ (bs : List Nat) (n : Nat), s.length ≤ n →
    startsWith s (bs.take n) = startsWith s bs := by
  induction s with
  | nil => intro bs n _; rfl
  | cons a ss ih =>
    intro bs n h
    cases bs with
    | nil => simp
    | cons b bs2 =>
      cases n with
      | zero => simp at h
      | succ m =>
        simp only [List.take_succ_cons, startsWith]
        rw [ih bs2 m (by simp at h; omega)]

theorem sig_of_png (f : FSFile) (h : f.readOk = true) (r : List Nat)
    (hb : f.rawBytes = pngSig ++ r) : detect_by_signature f = some "png" := by
  simp [detect_by_signature, h, hb, pngSig, startsWith]

theorem sig_of_jpeg (f : FSFile) (h : f.readOk = true) (r : List Nat)
    (hb : f.rawBytes = jpegSig ++ r) : detect_by_signature f = some "jpeg" := by
  simp [detect_by_signature, h, hb, pngSig, jpegSig, startsWith]

theorem sig_of_wav (f : FSFile) (h : f.readOk = true) (a b c d : Nat) (r : List Nat)
    (hb : f.rawBytes = riffSig ++ [a, b, c, d] ++ waveSig ++ r) :
    detect_by_signature f = some "wav" := by
  simp [detect_by_signature, h, hb, pngSig, jpegSig, riffSig, waveSig, startsWith]

theorem sig_of_gif (f : FSFile) (h : f.readOk = true) (r : List Nat)
    (hb : f.rawBytes = gifSig ++ r) : detect_by_signature f = some "gif" := by
  simp [detect_by_signature, h, hb, pngSig, jpegSig, riffSig, gifSig, startsWith]

theorem sig_of_pdf (f : FSFile) (h : f.readOk = true) (r : List Nat)
    (hb : f.rawBytes = pdfSig ++ r) : detect_by_signature f = some "pdf" := by
  simp [detect_by_signature, h, hb, pngSig, jpegSig, riffSig, gifSig, pdfSig, startsWith]

/-- C1: for every existing regular file whose byte prefix matches one of the
registered binary signatures (png, jpeg, wav, gif, pdf), `detect_file_type`
returns that format's tag and `detect_with_confidence` returns it with
confidence exactly 1.0, regardless of the file's extension or any further
content (the suffix and the text lines of `f` are unconstrained). -/
theorem C1_signature_precedence (f : FSFile) (t : String)
    (hex : f.fexists = true) (hfile : f.isFile = true) (hread : f.readOk = true)
    (hsig : sigHolds t f.rawBytes) :
    detect_with_confidence f = (some t, 1) ∧ detect_file_type f (1/2) = Except.ok t := by
  have hdet : detect_by_signature f = some t := by
    rcases hsig with ⟨ht, r, hb⟩ | ⟨ht, r, hb⟩ | ⟨ht, a, b, c, d, r, hb⟩ | ⟨ht, r, hb⟩ |
      ⟨ht, r, hb⟩
    · subst ht; exact sig_of_png f hread r hb
    · subst ht; exact sig_of_jpeg f hread r hb
    · subst ht; exact sig_of_wav f hread a b c d r hb
    · subst ht; exact sig_of_gif f hread r hb
    · subst ht; exact sig_of_pdf f hread r hb
  have h1 : detect_with_confidence f = (some t, 1) := by
    unfold detect_with_confidence
    rw [hdet]
  refine ⟨h1, ?_⟩
  simp only [detect_file_type, hex, hfile, h1]
  norm_num

/-- Witness for C1: a PNG-signatured file named `something.txt` is detected
as png with confidence 1.0 and `detect_file_type` returns png. -/
theorem C1_signature_precedence_witness :
    detect_with_confidence filePngRenamed = (some "png", 1) ∧
    detect_file_type filePngRenamed (1/2) = Except.ok "png" :=
  C1_signature_precedence filePngRenamed "png" rfl rfl rfl
    (Or.inl ⟨rfl, [0, 1, 2, 3], rfl⟩)

/-- C2: for every file with no signature match, `detect_with_confidence`
follows the spec's priority ladder: extension-with-agreeing-analyzer at 0.8,
then content analysis (tabular before log) at 0.6, then the bare extension
proposal at 0.5, then `(none, 0.0)`. -/
theorem C2_priority_ladder (f : FSFile) (hsig : detect_by_signature f = none) :
    detect_with_confidence f = ladderFromSpec f := by
  unfold detect_with_confidence ladderFromSpec
  rw [hsig]
  cases hext : detect_by_extension f with
  | none =>
    simp [contentThenExtension, hext]
  | some t =>
    by_cases hcsv : t = "csv"
    · subst hcsv
      by_cases hc : looks_like_csv f 10 = true
      · simp [analyzerFor, hc, hext]
      · simp [analyzerFor, hc, hext, contentThenExtension]
    · by_cases hlog : t = "log"
      · subst hlog
        by_cases hl : looks_like_log f 10 = true
        · by_cases hc : looks_like_csv f 10 = true
          · simp [analyzerFor, hc, hl, hext]
          · simp [analyzerFor, hc, hl, hext]
        · simp [analyzerFor, hl, hext, contentThenExtension]
      · simp [analyzerFor, hcsv, hlog, hext, contentThenExtension]

/-- Witness for C2: a signatureless `.csv` file with comma-delimited
content follows the ladder. -/
theorem C2_priority_ladder_witness :
    detect_with_confidence fileCsv = ladderFromSpec fileCsv :=
  C2_priority_ladder fileCsv (by decide)

/-- C3: for every input file, the confidence returned by
`detect_with_confidence` lies in the closed interval from 0.0 to 1.0, and
the returned tag is `none` if and only if the returned confidence is 0.0. -/
theorem C3_confidence_bounds (f : FSFile) :
    (0 ≤ (detect_with_confidence f).2 ∧ (detect_with_confidence f).2 ≤ 1) ∧
    ((detect_with_confidence f).1 = none ↔ (detect_with_confidence f).2 = 0) := by
  unfold detect_with_confidence
  cases hsig : detect_by_signature f with
  | some t => simp [hsig]
  | none =>
    cases hext : detect_by_extension f with
    | none =>
      by_cases hc : looks_like_csv f 10 = true <;> by_cases hl : looks_like_log f 10 = true <;>
        simp [hsig, hext, hc, hl] <;> norm_num
    | some t =>
      by_cases hc : looks_like_csv f 10 = true <;> by_cases hl : looks_like_log f 10 = true <;>
        by_cases h1 : t = "csv" <;> by_cases h2 : t = "log" <;>
        simp [hsig, hext, hc, hl, h1, h2] <;> norm_num

/-! ### Dictionary lemmas -/

theorem mem_upsert_keys (a k : String) (v : ℚ) (l : List (String × ℚ)) :
    a ∈ (upsert k v l).map Prod.fst ↔ a = k ∨ a ∈ l.map Prod.fst := by
  induction l with
  | nil => simp [upsert]
  | cons p rest ih =>
    obtain ⟨k2, v2⟩ := p
    by_cases h : k2 = k
    · subst h
      simp [upsert]
    · simp [upsert, h, ih]
      tauto

theorem upsert_keys_nodup (k : String) (v : ℚ) (l : List (String × ℚ))
    (h : (l.map Prod.fst).Nodup) : ((upsert k v l).map Prod.fst).Nodup := by
  induction l with
  | nil => simp [upsert]
  | cons p rest ih =>
    obtain ⟨k2, v2⟩ := p
    simp only [List.map_cons, List.nodup_cons] at h
    by_cases hk : k2 = k
    · subst hk
      simpa [upsert] using h
    · simp only [upsert, if_neg hk, List.map_cons, List.nodup_cons, mem_upsert_keys]
      exact ⟨by simp [hk, h.1], ih h.2⟩

theorem beq_false_of_ne {a b : String} (h : a ≠ b) : (a == b) = false :=
  beq_eq_false_iff_ne.mpr h

theorem lookup_upsert_self (k : String) (v : ℚ) (l : List (String × ℚ)) :
    (upsert k v l).lookup k = some v := by
  induction l with
  | nil => simp [upsert, List.lookup]
  | cons p rest ih =>
    obtain ⟨k2, v2⟩ := p
    by_cases h : k2 = k
    · subst h
      simp [upsert, List.lookup]
    · simp [upsert, h, List.lookup, beq_false_of_ne (Ne.symm h), ih]

theorem lookup_upsert_ne (a k : String) (v : ℚ) (l : List (String × ℚ)) (h : a ≠ k) :
    (upsert k v l).lookup a = l.lookup a := by
  induction l with
  | nil => simp [upsert, List.lookup, beq_false_of_ne h]
  | cons p rest ih =>
    obtain ⟨k2, v2⟩ := p
    by_cases hk : k2 = k
    · subst hk
      simp [upsert, List.lookup, beq_false_of_ne h]
    · by_cases ha : a = k2
      · subst ha
        simp [upsert, hk, List.lookup]
      · simp [upsert, hk, List.lookup, beq_false_of_ne ha, ih]

/-! ### Sorting lemmas -/

theorem mem_insertByConf (a x : String × ℚ) (l : List (String × ℚ)) :
    a ∈ insertByConf x l ↔ a = x ∨ a ∈ l := by
  induction l with
  | nil => simp [insertByConf]
  | cons y ys ih =>
    by_cases h : y.2 ≤ x.2
    · simp [insertByConf, h]
    · simp [insertByConf, h, ih]
      tauto

theorem length_insertByConf (x : String × ℚ) (l : List (String × ℚ)) :
    (insertByConf x l).length = l.length + 1 := by
  induction l with
  | nil => rfl
  | cons y ys ih =>
    by_cases h : y.2 ≤ x.2
    · simp [insertByConf, h]
    · simp [insertByConf, h, ih]

theorem length_sortByConfDesc (l : List (String × ℚ)) :
    (sortByConfDesc l).length = l.length := by
  induction l with
  | nil => rfl
  | cons x xs ih => simp [sortByConfDesc, length_insertByConf, ih]

theorem pairwise_insertByConf (x : String × ℚ) (l : List (String × ℚ))
    (h : List.Pairwise (fun a b : String × ℚ => b.2 ≤ a.2) l) :
    List.Pairwise (fun a b : String × ℚ => b.2 ≤ a.2) (insertByConf x l) := by
  induction l with
  | nil => simp [insertByConf]
  | cons y ys ih =>
    rcases List.pairwise_cons.mp h with ⟨hy, hys⟩
    by_cases hc : y.2 ≤ x.2
    · rw [insertByConf, if_pos hc]
      refine List.pairwise_cons.mpr ⟨?_, h⟩
      intro z hz
      rcases List.mem_cons.mp hz with hz | hz
      · exact hz ▸ hc
      · exact le_trans (hy z hz) hc
    · rw [insertByConf, if_neg hc]
      refine List.pairwise_cons.mpr ⟨?_, ih hys⟩
      intro z hz
      rcases (mem_insertByConf z x ys).mp hz with hz | hz
      · exact hz ▸ le_of_not_le hc
      · exact hy z hz

theorem sortByConfDesc_pairwise (l : List (String × ℚ)) :
    List.Pairwise (fun a b : String × ℚ => b.2 ≤ a.2) (sortByConfDesc l) := by
  induction l with
  | nil => exact List.Pairwise.nil
  | cons x xs ih => exact pairwise_insertByConf x (sortByConfDesc xs) ih

/-! ### Range lemmas: what the strategies can propose -/

theorem detect_by_signature_cases (f : FSFile) (t : String)
    (h : detect_by_signature f = some t) :
    t = "png" ∨ t = "jpeg" ∨ t = "wav" ∨ t = "gif" ∨ t = "pdf" := by
  simp only [detect_by_signature] at h
  split_ifs at h <;> simp_all

theorem detect_by_extension_cases (f : FSFile) (t : String)
    (h : detect_by_extension f = some t) :
    t = "csv" ∨ t = "log" ∨ t = "text" ∨ t = "wav" ∨ t = "png" ∨ t = "jpeg" ∨
      t = "gif" ∨ t = "pdf" := by
  unfold detect_by_extension at h
  cases hf : EXTENSION_MAP.find? (fun p => p.1 = pyLower f.suffix) with
  | none => rw [hf] at h; simp at h
  | some p =>
    have hpm := List.mem_of_find?_eq_some hf
    rw [hf] at h
    simp at h
    subst h
    fin_cases hpm <;> simp

/-! ### Step lemmas for `detect_all_possible_types` -/

theorem lookup_sigStep (f : FSFile) (t : String) :
    (sigStep f).lookup t = if detect_by_signature f = some t then some 1 else none := by
  unfold sigStep
  cases hs : detect_by_signature f with
  | none => simp [List.lookup]
  | some s =>
    by_cases h : s = t
    · subst h
      simp [upsert, List.lookup]
    · simp [upsert, List.lookup, beq_false_of_ne (Ne.symm h), h]

theorem lookup_csvStep_ne (f : FSFile) (l : List (String × ℚ)) (a : String)
    (h : a ≠ "csv") : (csvStep f l).lookup a = l.lookup a := by
  unfold csvStep
  split_ifs with hc
  · cases hx : l.lookup "csv" with
    | none => exact lookup_upsert_ne a "csv" _ l h
    | some c => exact lookup_upsert_ne a "csv" _ l h
  · rfl

theorem lookup_logStep_ne (f : FSFile) (l : List (String × ℚ)) (a : String)
    (h : a ≠ "log") : (logStep f l).lookup a = l.lookup a := by
  unfold logStep
  split_ifs with hc
  · cases hx : l.lookup "log" with
    | none => exact lookup_upsert_ne a "log" _ l h
    | some c => exact lookup_upsert_ne a "log" _ l h
  · rfl

theorem lookup_textStep_ne (f : FSFile) (l : List (String × ℚ)) (a : String)
    (h : a ≠ "text") : (textStep f l).lookup a = l.lookup a := by
  unfold textStep
  split_ifs with hc
  · exact lookup_upsert_ne a "text" _ l h
  · rfl

theorem nodup_keys_sigStep (f : FSFile) : ((sigStep f).map Prod.fst).Nodup := by
  unfold sigStep
  cases detect_by_signature f <;> simp [upsert]

theorem nodup_keys_extStep (f : FSFile) (l : List (String × ℚ))
    (h : (l.map Prod.fst).Nodup) : ((extStep f l).map Prod.fst).Nodup := by
  cases hx : detect_by_extension f with
  | none => simpa [extStep, hx] using h
  | some t =>
    simp only [extStep, hx]
    split_ifs with hl
    · exact upsert_keys_nodup _ _ _ h
    · exact h

theorem nodup_keys_csvStep (f : FSFile) (l : List (String × ℚ))
    (h : (l.map Prod.fst).Nodup) : ((csvStep f l).map Prod.fst).Nodup := by
  unfold csvStep
  split_ifs with hc
  · cases hx : l.lookup "csv" with
    | none => exact upsert_keys_nodup _ _ _ h
    | some c => exact upsert_keys_nodup _ _ _ h
  · exact h

theorem nodup_keys_logStep (f : FSFile) (l : List (String × ℚ))
    (h : (l.map Prod.fst).Nodup) : ((logStep f l).map Prod.fst).Nodup := by
  unfold logStep
  split_ifs with hc
  · cases hx : l.lookup "log" with
    | none => exact upsert_keys_nodup _ _ _ h
    | some c => exact upsert_keys_nodup _ _ _ h
  · exact h

theorem nodup_keys_textStep (f : FSFile) (l : List (String × ℚ))
    (h : (l.map Prod.fst).Nodup) : ((textStep f l).map Prod.fst).Nodup := by
  unfold textStep
  split_ifs with hc
  · exact upsert_keys_nodup _ _ _ h
  · exact h

theorem nodup_keys_detAll (f : FSFile) :
    ((detect_all_possible_types f).map Prod.fst).Nodup :=
  nodup_keys_textStep f _ (nodup_keys_logStep f _ (nodup_keys_csvStep f _
    (nodup_keys_extStep f _ (nodup_keys_sigStep f))))

theorem lookup_detAll_merge (f : FSFile) (t : String)
    (h2 : 2 ≤ (contribs f t).length) :
    (detect_all_possible_types f).lookup t = some ((contribs f t).foldr max 0) := by
  unfold detect_all_possible_types
  by_cases hS : detect_by_signature f = some t
  · have ht := detect_by_signature_cases f t hS
    have htc : t ≠ "csv" := by rcases ht with h | h | h | h | h <;> subst h <;> simp
    have htl : t ≠ "log" := by rcases ht with h | h | h | h | h <;> subst h <;> simp
    have htt : t ≠ "text" := by rcases ht with h | h | h | h | h <;> subst h <;> simp
    by_cases hE : detect_by_extension f = some t
    · have e1 : (sigStep f).lookup t = some 1 := by rw [lookup_sigStep, if_pos hS]
      have e2 : (extStep f (sigStep f)).lookup t = some 1 := by
        simp only [extStep, hE]
        rw [if_neg (by simp [e1])]
        exact e1
      rw [lookup_textStep_ne f _ t htt, lookup_logStep_ne f _ t htl,
        lookup_csvStep_ne f _ t htc, e2]
      have hcon : contribs f t = [1, 1/2] := by
        simp [contribs, hS, hE, htc, htl]
      rw [hcon]
      simp only [List.foldr]
      rw [max_eq_left (by norm_num : ((1:ℚ)/2) ⊔ 0 ≤ 1)]
    · exfalso
      simp [contribs, hS, hE, htc, htl] at h2
  · by_cases hE : detect_by_extension f = some t
    · by_cases hC : t = "csv" ∧ looks_like_csv f 10 = true
      · obtain ⟨ht, hcsv⟩ := hC
        subst ht
        have e1 : (sigStep f).lookup "csv" = none := by rw [lookup_sigStep, if_neg hS]
        have e2 : (extStep f (sigStep f)).lookup "csv" = some (1/2) := by
          simp only [extStep, hE]
          rw [if_pos e1]
          exact lookup_upsert_self _ _ _
        have e3 : (csvStep f (extStep f (sigStep f))).lookup "csv" =
            some (max (1/2) (4/5)) := by
          unfold csvStep
          rw [if_pos hcsv, e2]
          exact lookup_upsert_self _ _ _
        rw [lookup_textStep_ne f _ _ (by simp), lookup_logStep_ne f _ _ (by simp), e3]
        have hcon : contribs f "csv" = [1/2, 4/5] := by
          simp [contribs, hS, hE, hcsv]
        rw [hcon]
        simp only [List.foldr]
        rw [max_eq_left (by norm_num : (0:ℚ) ≤ 4/5),
          max_eq_right (by norm_num : ((1:ℚ)/2) ≤ 4/5)]
      · by_cases hL : t = "log" ∧ looks_like_log f 10 = true
        · obtain ⟨ht, hlog⟩ := hL
          subst ht
          have e1 : (sigStep f).lookup "log" = none := by rw [lookup_sigStep, if_neg hS]
          have e2 : (extStep f (sigStep f)).lookup "log" = some (1/2) := by
            simp only [extStep, hE]
            rw [if_pos e1]
            exact lookup_upsert_self _ _ _
          have e3 : (csvStep f (extStep f (sigStep f))).lookup "log" = some (1/2) := by
            rw [lookup_csvStep_ne f _ _ (by simp)]
            exact e2
          have e4 : (logStep f (csvStep f (extStep f (sigStep f)))).lookup "log" =
              some (max (1/2) (4/5)) := by
            unfold logStep
            rw [if_pos hlog, e3]
            exact lookup_upsert_self _ _ _
          rw [lookup_textStep_ne f _ _ (by simp), e4]
          have hcon : contribs f "log" = [1/2, 4/5] := by
            simp [contribs, hS, hE, hlog]
          rw [hcon]
          simp only [List.foldr]
          rw [max_eq_left (by norm_num : (0:ℚ) ≤ 4/5),
            max_eq_right (by norm_num : ((1:ℚ)/2) ≤ 4/5)]
        · exfalso
          simp [contribs, hS, hE, hC, hL] at h2
    · exfalso
      by_cases hC : t = "csv" ∧ looks_like_csv f 10 = true
      · obtain ⟨ht, hcsv⟩ := hC
        subst ht
        simp [contribs, hS, hE, hcsv] at h2
      · by_cases hL : t = "log" ∧ looks_like_log f 10 = true
        · obtain ⟨ht, hlog⟩ := hL
          subst ht
          simp [contribs, hS, hE, hlog] at h2
        · simp [contribs, hS, hE, hC, hL] at h2

/-- C5: for every input file, the candidate collection returned by
`detect_all_possible_types` contains at most one entry per distinct tag,
and whenever two strategies contribute confidences for the same tag the
stored confidence is the maximum of the individual contributions, never
their sum. -/
theorem C5_merge_by_max (f : FSFile) :
    ((detect_all_possible_types f).map Prod.fst).Nodup ∧
    (∀ t : String, 2 ≤ (contribs f t).length →
      (detect_all_possible_types f).lookup t = some ((contribs f t).foldr max 0)) :=
  ⟨nodup_keys_detAll f, fun t h => lookup_detAll_merge f t h⟩

/-- Witness for C5: the `.csv` file with comma-delimited content receives
two contributions for the csv tag (0.5 from the extension, 0.8 from the
agreeing analyzer) and stores their maximum. -/
theorem C5_merge_by_max_witness :
    ((detect_all_possible_types fileCsv).map Prod.fst).Nodup ∧
    (detect_all_possible_types fileCsv).lookup "csv" =
      some ((contribs fileCsv "csv").foldr max 0) :=
  ⟨(C5_merge_by_max fileCsv).1, (C5_merge_by_max fileCsv).2 "csv" (by decide)⟩

/-- C4: `is_detection_ambiguous` reports not-ambiguous whenever
`detect_all_possible_types` produces fewer than 2 candidates, and reports
ambiguous exactly when two or more distinct tags are present (the keys are
distinct by `nodup_keys_detAll`) and the confidence gap between the two
highest-confidence candidates — the first two entries of the
descending-sorted candidate list — is at most the threshold. -/
theorem C4_ambiguity_threshold (f : FSFile) (thr : ℚ) :
    ((detect_all_possible_types f).length < 2 → (is_detection_ambiguous f thr).1 = false) ∧
    ((is_detection_ambiguous f thr).1 = true ↔
      ∃ a b rest, sortByConfDesc (detect_all_possible_types f) = a :: b :: rest ∧
        2 ≤ (detect_all_possible_types f).length ∧ a.2 - b.2 ≤ thr) := by
  constructor
  · intro hlen
    simp only [is_detection_ambiguous]
    rw [if_pos hlen]
  · simp only [is_detection_ambiguous]
    by_cases hlen : (detect_all_possible_types f).length < 2
    · rw [if_pos hlen]
      simp only [Bool.false_eq_true, false_iff]
      rintro ⟨a, b, rest, hs, h2, _⟩
      omega
    · rw [if_neg hlen]
      have hl : (sortByConfDesc (detect_all_possible_types f)).length =
          (detect_all_possible_types f).length := length_sortByConfDesc _
      rcases hs : sortByConfDesc (detect_all_possible_types f) with _ | ⟨a, _ | ⟨b, rest⟩⟩
      · rw [hs] at hl
        simp at hl
        omega
      · rw [hs] at hl
        simp at hl
        omega
      · rw [hs] at hl
        simp only [List.length_cons] at hl
        simp only [decide_eq_true_eq]
        constructor
        · intro h
          exact ⟨a, b, rest, rfl, by omega, h⟩
        · rintro ⟨a2, b2, rest2, heq, _, hle⟩
          obtain ⟨ha, hb, _⟩ : a = a2 ∧ b = b2 ∧ rest = rest2 := by
            injection heq with h1 h2
            injection h2 with h2 h3
            exact ⟨h1, h2, h3⟩
          rw [ha, hb]
          exact hle

/-- Witness for C4: the empty extensionless file yields no candidates, so
the detection is not ambiguous. -/
theorem C4_ambiguity_threshold_witness :
    (is_detection_ambiguous fileEmpty (3/20)).1 = false :=
  (C4_ambiguity_threshold fileEmpty (3/20)).1 (by decide)

/-- Counterexample to C8: a `.png`-named file with comma-delimited text
content produces the candidate dictionary `png ↦ 0.5, csv ↦ 0.6` in
insertion order, which is not ordered descending by confidence. -/
theorem C8_counterexample :
    detect_all_possible_types filePngExtCsvContent = [("png", 1/2), ("csv", 3/5)] ∧
    ¬ List.Pairwise (fun a b : String × ℚ => b.2 ≤ a.2)
        (detect_all_possible_types filePngExtCsvContent) := by
  have h : detect_all_possible_types filePngExtCsvContent = [("png", 1/2), ("csv", 3/5)] := rfl
  refine ⟨h, ?_⟩
  rw [h]
  intro hp
  have h2 := (List.pairwise_cons.mp hp).1 ("csv", 3/5) (by simp)
  norm_num at h2

/-- C8 (amended): the dictionary returned by `detect_all_possible_types` is
in strategy insertion order, not sorted; the descending order by confidence
holds for the sorted sequence that `is_detection_ambiguous` derives from it
when comparing the top two candidates. -/
theorem C8_sorted_internal (f : FSFile) :
    List.Pairwise (fun a b : String × ℚ => b.2 ≤ a.2)
      (sortByConfDesc (detect_all_possible_types f)) :=
  sortByConfDesc_pairwise _

/-- Counterexample to C6: a signatureless `.txt` file of plain prose maps
through the extension to the `text` tag, yet its stored confidence is the
downgraded 0.4 — neither 0.5 nor 0.8. -/
theorem C6_counterexample :
    detect_by_signature filePlainTxt = none ∧
    detect_by_extension filePlainTxt = some "text" ∧
    (detect_all_possible_types filePlainTxt).lookup "text" = some (2/5) ∧
    (detect_all_possible_types filePlainTxt).lookup "text" ≠ some (1/2) ∧
    (detect_all_possible_types filePlainTxt).lookup "text" ≠ some (4/5) := by
  have h : (detect_all_possible_types filePlainTxt).lookup "text" = some (2/5) := rfl
  refine ⟨rfl, rfl, h, ?_, ?_⟩ <;> rw [h] <;> simp <;> norm_num

/-- C6 (amended): for every file with no signature match whose extension
maps to tag `t`, the tag `t` appears in `detect_all_possible_types` with
confidence 0.8 when the corresponding content analyzer (csv or log) reports
true for `t`; with the downgraded confidence 0.4 when `t` is the generic
`text` tag and neither content analyzer fires (so it is the sole
candidate); and with confidence exactly 0.5 in every other case. -/
theorem C6_extension_confidences (f : FSFile) (t : String)
    (hsig : detect_by_signature f = none)
    (hext : detect_by_extension f = some t) :
    (detect_all_possible_types f).lookup t =
      some (if t = "csv" ∧ looks_like_csv f 10 = true then 4/5
            else if t = "log" ∧ looks_like_log f 10 = true then 4/5
            else if t = "text" ∧ looks_like_csv f 10 = false ∧ looks_like_log f 10 = false
              then 2/5
            else 1/2) := by
  have e1 : sigStep f = [] := by simp [sigStep, hsig]
  unfold detect_all_possible_types
  by_cases htc : t = "csv"
  · subst htc
    have e2 : extStep f (sigStep f) = [("csv", 1/2)] := by
      simp [extStep, hext, e1, List.lookup, upsert]
    rw [lookup_textStep_ne f _ _ (by simp), lookup_logStep_ne f _ _ (by simp)]
    by_cases hc : looks_like_csv f 10 = true
    · have hlk : List.lookup "csv" [("csv", (1:ℚ)/2)] = some (1/2) := by
        simp [List.lookup]
      have e3 : (csvStep f (extStep f (sigStep f))).lookup "csv" =
          some (max (1/2) (4/5)) := by
        simp only [csvStep, if_pos hc, e2, hlk]
        exact lookup_upsert_self _ _ _
      rw [e3, max_eq_right (by norm_num : ((1:ℚ)/2) ≤ 4/5)]
      simp [hc]
    · have e3 : csvStep f (extStep f (sigStep f)) = [("csv", (1:ℚ)/2)] := by
        rw [csvStep, if_neg hc]
        exact e2
      rw [e3]
      simp [List.lookup, hc]
  · by_cases htl : t = "log"
    · subst htl
      have e2 : extStep f (sigStep f) = [("log", 1/2)] := by
        simp [extStep, hext, e1, List.lookup, upsert]
      have e2l : (extStep f (sigStep f)).lookup "log" = some (1/2) := by
        rw [e2]
        simp [List.lookup]
      have e3 : (csvStep f (extStep f (sigStep f))).lookup "log" = some (1/2) := by
        rw [lookup_csvStep_ne f _ _ (by simp)]
        exact e2l
      rw [lookup_textStep_ne f _ _ (by simp)]
      by_cases hl : looks_like_log f 10 = true
      · have e4 : (logStep f (csvStep f (extStep f (sigStep f)))).lookup "log" =
            some (max (1/2) (4/5)) := by
          simp only [logStep, if_pos hl, e3]
          exact lookup_upsert_self _ _ _
        rw [e4, max_eq_right (by norm_num : ((1:ℚ)/2) ≤ 4/5)]
        simp [hl]
      · have e4 : logStep f (csvStep f (extStep f (sigStep f))) =
            csvStep f (extStep f (sigStep f)) := by
          rw [logStep, if_neg hl]
        rw [e4, e3]
        simp [hl]
    · by_cases htt : t = "text"
      · subst htt
        have e2 : extStep f (sigStep f) = [("text", 1/2)] := by
          simp [extStep, hext, e1, List.lookup, upsert]
        by_cases hc : looks_like_csv f 10 = true
        · have k1 : List.lookup "csv" [("text", (1:ℚ)/2)] = none := by
            simp [List.lookup]
          have e3 : csvStep f (extStep f (sigStep f)) =
              [("text", 1/2), ("csv", 3/5)] := by
            rw [csvStep, if_pos hc, e2, k1]
            simp [upsert]
          by_cases hl : looks_like_log f 10 = true
          · have k2 : List.lookup "log" [("text", (1:ℚ)/2), ("csv", 3/5)] = none := by
              simp [List.lookup]
            have e4 : logStep f (csvStep f (extStep f (sigStep f))) =
                [("text", 1/2), ("csv", 3/5), ("log", 3/5)] := by
              rw [logStep, if_pos hl, e3, k2]
              simp [upsert]
            have e5 : textStep f (logStep f (csvStep f (extStep f (sigStep f)))) =
                [("text", 1/2), ("csv", 3/5), ("log", 3/5)] := by
              rw [textStep, if_neg (by rw [e4]; simp), e4]
            rw [e5]
            simp [List.lookup, hc]
          · have e4 : logStep f (csvStep f (extStep f (sigStep f))) =
                [("text", 1/2), ("csv", 3/5)] := by
              rw [logStep, if_neg hl]
              exact e3
            have e5 : textStep f (logStep f (csvStep f (extStep f (sigStep f)))) =
                [("text", 1/2), ("csv", 3/5)] := by
              rw [textStep, if_neg (by rw [e4]; simp), e4]
            rw [e5]
            simp [List.lookup, hc]
        · have e3 : csvStep f (extStep f (sigStep f)) = [("text", (1:ℚ)/2)] := by
            rw [csvStep, if_neg hc]
            exact e2
          by_cases hl : looks_like_log f 10 = true
          · have k2 : List.lookup "log" [("text", (1:ℚ)/2)] = none := by
              simp [List.lookup]
            have e4 : logStep f (csvStep f (extStep f (sigStep f))) =
                [("text", 1/2), ("log", 3/5)] := by
              rw [logStep, if_pos hl, e3, k2]
              simp [upsert]
            have e5 : textStep f (logStep f (csvStep f (extStep f (sigStep f)))) =
                [("text", 1/2), ("log", 3/5)] := by
              rw [textStep, if_neg (by rw [e4]; simp), e4]
            rw [e5]
            simp [List.lookup, hc, hl]
          · have e4 : logStep f (csvStep f (extStep f (sigStep f))) =
                [("text", (1:ℚ)/2)] := by
              rw [logStep, if_neg hl]
              exact e3
            have e5 : textStep f (logStep f (csvStep f (extStep f (sigStep f)))) =
                [("text", 2/5)] := by
              rw [textStep, if_pos ⟨hext, by rw [e4]; simp [List.lookup], by rw [e4]; simp⟩, e4]
              simp [upsert]
            rw [e5]
            simp [List.lookup, hc, hl,
              eq_false_of_ne_true hc, eq_false_of_ne_true hl]
      · have e2 : extStep f (sigStep f) = [(t, 1/2)] := by
          simp [extStep, hext, e1, List.lookup, upsert]
        rw [lookup_textStep_ne f _ t htt, lookup_logStep_ne f _ t htl,
          lookup_csvStep_ne f _ t htc, e2]
        simp [List.lookup, htc, htl, htt]

/-- Witness for C6 (amended): the `.csv` file with agreeing content stores
the boosted confidence for its extension tag. -/
theorem C6_extension_confidences_witness :
    (detect_all_possible_types fileCsv).lookup "csv" =
      some (if "csv" = "csv" ∧ looks_like_csv fileCsv 10 = true then 4/5
            else if "csv" = "log" ∧ looks_like_log fileCsv 10 = true then 4/5
            else if "csv" = "text" ∧ looks_like_csv fileCsv 10 = false ∧
                looks_like_log fileCsv 10 = false
              then 2/5
            else 1/2) :=
  C6_extension_confidences fileCsv "csv" (by decide) (by decide)

theorem foldr_max_pos (ns : List ℕ) (h : 0 < ns.sum) : 0 < ns.foldr max 0 := by
  induction ns with
  | nil => simp at h
  | cons n ns ih =>
    simp only [List.sum_cons] at h
    simp only [List.foldr]
    by_cases hn : 0 < n
    · exact lt_of_lt_of_le hn (le_max_left _ _)
    · have hs : 0 < ns.sum := by omega
      exact lt_of_lt_of_le (ih hs) (le_max_right _ _)

/-- Counterexample to C7: a `.txt` file whose two lines satisfy both
analyzers yields three candidates (`text` at 0.5 from the extension joins
`csv` and `log` at 0.6), not the two the claim asserts. -/
theorem C7_counterexample :
    pyLower fileTxtCsvLog.suffix = ".txt" ∧
    detect_by_signature fileTxtCsvLog = none ∧
    looks_like_csv fileTxtCsvLog 10 = true ∧
    looks_like_log fileTxtCsvLog 10 = true ∧
    detect_all_possible_types fileTxtCsvLog =
      [("text", 1/2), ("csv", 3/5), ("log", 3/5)] ∧
    (detect_all_possible_types fileTxtCsvLog).length ≠ 2 :=
  ⟨rfl, rfl, by decide, by decide, rfl, by decide⟩

/-- C7 (amended): for every file named with suffix `.txt`, with no binary
signature, readable as text, whose sampled non-empty lines (at least 2) are
comma-delimited with average comma count at least 1 and also meet the log
analyzer's 50% thresholds, `detect_all_possible_types` returns exactly
three entries — text at 0.5 (from the extension), tabular (csv) and log at
0.6 each — and `is_detection_ambiguous` reports ambiguous at the default
threshold 0.15. -/
theorem C7_txt_csv_log_ambiguous (f : FSFile)
    (hsig : detect_by_signature f = none)
    (hsfx : pyLower f.suffix = ".txt")
    (htext : f.textOk = true)
    (hlen : 2 ≤ (sampleNonEmpty f.rawLines 10).length)
    (hcomma : (sampleNonEmpty f.rawLines 10).length ≤
      (((sampleNonEmpty f.rawLines 10).map (countChar ',')).sum))
    (hlogthr : (sampleNonEmpty f.rawLines 10).length ≤
        2 * (sampleNonEmpty f.rawLines 10).countP (fun s => timestampMatch s) ∨
      (sampleNonEmpty f.rawLines 10).length ≤
        2 * (sampleNonEmpty f.rawLines 10).countP (fun s => logLevelMatch s)) :
    detect_all_possible_types f = [("text", 1/2), ("csv", 3/5), ("log", 3/5)] ∧
    (is_detection_ambiguous f (3/20)).1 = true := by
  have hext : detect_by_extension f = some "text" := by
    simp [detect_by_extension, EXTENSION_MAP, List.find?, hsfx]
  have hcsv : looks_like_csv f 10 = true := by
    simp only [looks_like_csv]
    rw [if_neg (by simp [htext]), if_neg (by omega)]
    rw [List.any_eq_true]
    refine ⟨',', by simp [csvDelimiters], ?_⟩
    simp only [Bool.and_eq_true, decide_eq_true_eq]
    constructor
    · exact foldr_max_pos _ (by omega)
    · exact hcomma
  have hlog : looks_like_log f 10 = true := by
    have hne : ¬(sampleNonEmpty f.rawLines 10 = []) := by
      intro h0
      rw [h0] at hlen
      simp at hlen
    simp only [looks_like_log]
    rw [if_neg (by simp [htext]), if_neg hne]
    rw [Bool.or_eq_true]
    rcases hlogthr with h | h
    · exact Or.inl (by simp [h])
    · exact Or.inr (by simp [h])
  have e1 : sigStep f = [] := by simp [sigStep, hsig]
  have e2 : extStep f (sigStep f) = [("text", 1/2)] := by
    simp [extStep, hext, e1, List.lookup, upsert]
  have k1 : List.lookup "csv" [("text", (1:ℚ)/2)] = none := by
    simp [List.lookup]
  have e3 : csvStep f (extStep f (sigStep f)) = [("text", 1/2), ("csv", 3/5)] := by
    rw [csvStep, if_pos hcsv, e2, k1]
    simp [upsert]
  have k2 : List.lookup "log" [("text", (1:ℚ)/2), ("csv", 3/5)] = none := by
    simp [List.lookup]
  have e4 : logStep f (csvStep f (extStep f (sigStep f))) =
      [("text", 1/2), ("csv", 3/5), ("log", 3/5)] := by
    rw [logStep, if_pos hlog, e3, k2]
    simp [upsert]
  have hdict : detect_all_possible_types f =
      [("text", 1/2), ("csv", 3/5), ("log", 3/5)] := by
    unfold detect_all_possible_types
    rw [textStep, if_neg (by rw [e4]; simp), e4]
  refine ⟨hdict, ?_⟩
  have hsort : sortByConfDesc [("text", (1:ℚ)/2), ("csv", 3/5), ("log", 3/5)] =
      [("csv", (3:ℚ)/5), ("log", 3/5), ("text", 1/2)] := by
    norm_num [sortByConfDesc, insertByConf]
  simp only [is_detection_ambiguous, hdict]
  rw [if_neg (by simp), hsort]
  simp only [decide_eq_true_eq]
  norm_num

/-- Witness for C7 (amended): the concrete `.txt` file whose lines satisfy
both analyzers produces the three candidates and an ambiguous result. -/
theorem C7_txt_csv_log_ambiguous_witness :
    detect_all_possible_types fileTxtCsvLog =
      [("text", 1/2), ("csv", 3/5), ("log", 3/5)] ∧
    (is_detection_ambiguous fileTxtCsvLog (3/20)).1 = true :=
  C7_txt_csv_log_ambiguous fileTxtCsvLog (by decide) (by decide) rfl (by decide)
    (by decide) (Or.inl (by decide))

/-- C9 (code bug): the readability check of `detect_file_type` is
`not (st_size >= 0)`, which no non-negative size can satisfy, so the
`PermissionError` exit is unreachable; a regular file whose bytes cannot be
read instead sails through detection — the `.csv`-named unreadable file is
reported as csv via its extension, and the extensionless one fails with the
`Undetermined` detection error rather than `Unreadable`. -/
theorem C9_unreadable_not_permission_error :
    detect_file_type fileUnreadableCsv (1/2) = Except.ok "csv" ∧
    detect_file_type fileUnreadableNoExt (1/2) = Except.error DetErr.undetermined ∧
    ∀ (f : FSFile) (c : ℚ), detect_file_type f c ≠ Except.error DetErr.permissionError := by
  refine ⟨?_, ?_, ?_⟩
  · have hdw : detect_with_confidence fileUnreadableCsv = (some "csv", 1/2) := rfl
    simp only [detect_file_type, hdw]
    simp [fileUnreadableCsv]
  · have hdw : detect_with_confidence fileUnreadableNoExt = (none, 0) := rfl
    simp only [detect_file_type, hdw]
    simp [fileUnreadableNoExt]
  · intro f c
    unfold detect_file_type
    by_cases h1 : f.fexists = false
    · rw [if_pos h1]
      simp
    · rw [if_neg h1]
      by_cases h2 : f.isFile = false
      · rw [if_pos h2]
        simp
      · rw [if_neg h2, if_neg (not_not_intro (Nat.zero_le _))]
        cases hdw : detect_with_confidence f with
        | mk tag conf =>
          cases tag with
          | none => simp
          | some t =>
            simp only []
            split_ifs with h4
            · simp
            · simp

/-- Witness for C9: the unreadable `.csv` file in particular does not fail
with `PermissionError`. -/
theorem C9_unreadable_not_permission_error_witness :
    detect_file_type fileUnreadableCsv (1/2) ≠ Except.error DetErr.permissionError :=
  C9_unreadable_not_permission_error.2.2 fileUnreadableCsv (1/2)

/-- C10: the log analyzer can report true on a sample containing exactly
one non-empty line when that line matches the timestamp or the log-level
pattern (one line meets the 50% threshold), whereas the tabular analyzer
reports false for every sample with fewer than 2 non-empty lines — the two
analyzers do not share a common minimum-evidence rule. -/
theorem C10_analyzer_minimum_evidence :
    (∀ (f : FSFile) (l : String), f.textOk = true →
      sampleNonEmpty f.rawLines 10 = [l] →
      (timestampMatch l = true ∨ logLevelMatch l = true) →
      looks_like_log f 10 = true) ∧
    (∀ f : FSFile, (sampleNonEmpty f.rawLines 10).length < 2 →
      looks_like_csv f 10 = false) := by
  constructor
  · intro f l htext hone hmatch
    simp only [looks_like_log]
    rw [if_neg (by simp [htext]), hone, if_neg (by simp)]
    rw [Bool.or_eq_true]
    rcases hmatch with h | h
    · refine Or.inl ?_
      have hc : List.countP (fun s => timestampMatch s) [l] = 1 := by
        simp [List.countP_cons, h]
      simp [hc]
    · refine Or.inr ?_
      have hc : List.countP (fun s => logLevelMatch s) [l] = 1 := by
        simp [List.countP_cons, h]
      simp [hc]
  · intro f hlt
    simp only [looks_like_csv]
    by_cases htext : f.textOk = false
    · rw [if_pos htext]
    · rw [if_neg htext, if_pos hlt]

/-- Witness for C10: a single timestamped log-levelled line satisfies the
log analyzer while the tabular analyzer rejects the same file. -/
theorem C10_analyzer_minimum_evidence_witness :
    looks_like_log fileOneLogLine 10 = true ∧ looks_like_csv fileOneLogLine 10 = false :=
  ⟨C10_analyzer_minimum_evidence.1 fileOneLogLine "2024-01-15 ERROR x" rfl (by decide)
      (Or.inl (by decide)),
    C10_analyzer_minimum_evidence.2 fileOneLogLine (by decide)⟩

end DataAlchemist
